import Mathlib

/-!
Verification of the `trampoline` executable
(`src/spawn_worker/src/trampoline.c`, the `#ifndef _WIN32` branch, which is
the branch the specification's loader/error-text/teardown language describes).

The program is embedded as a pure function from the argument vector and a
loader environment to an exit code together with an ordered trace of the
observable effects the program performs (file deletions, library opens and
closes, symbol resolution, the invocation, and text written to standard
output or to the error sink).
-/

/-- One observable effect of a trampoline run, in the order the C code
performs them:
* `unlink p`   — a call `unlink(p)` (file deletion attempt, result ignored);
* `dlopen p`   — a call `dlopen(p, RTLD_LAZY | RTLD_GLOBAL)` (also used for
  the target library);
* `close p`    — a call `dlclose` on the handle that was opened from `p`;
* `clearErr`   — the discarded `(void)dlerror()` call that clears the stale
  loader error state;
* `resolve s`  — the `dlsym(handle, s)` call;
* `invoke s`   — the call `(*fn)()` through the pointer resolved for `s`;
* `writeStdout t` — `printf` output `t` to standard output;
* `writeErr t` — `fputs(t, error_fd())`, text sent to the error sink. -/
inductive Event where
  | unlink (path : String)
  | dlopen (path : String)
  | close (path : String)
  | clearErr
  | resolve (sym : String)
  | invoke (sym : String)
  | writeStdout (text : String)
  | writeErr (text : String)
deriving DecidableEq, Repr

/-- The platform pieces the trampoline interacts with: the dynamic loader
(`dlopen` success, the `dlerror` text after a failed `dlopen`, `dlsym`
success, the `dlerror` text after a failed `dlsym`) and the filesystem's
response to `unlink` (whose result the C code discards). -/
structure Env where
  canOpen : String → Bool
  openErr : String → String
  hasSymbol : String → String → Bool
  symErr : String → String → String
  unlinkOk : String → Bool

/-- The dependency-loading loop of `main` (trampoline.c lines 54-68).
`deps` are the arguments `argv[3] .. argv[argc-2]`, `unlinkNext` is the
`unlink_next` flag.  An argument that is exactly `"-"` (`*lib_path == '-' &&
!lib_path[1]`) sets the flag and is skipped; any other argument is passed to
`dlopen`: on failure the loop stops with the `dlerror` text written to the
error sink and failure flag `true` (the C code returns 9 there); on success
the handle is recorded and, if the flag is set, the file is unlinked and the
flag cleared.  Returns the event trace, the paths whose handles were opened
(in load order), and whether the loop failed. -/
def loadDeps (env : Env) : List String → Bool → List Event × List String × Bool
  | [], _ => ([], [], false)
  | p :: rest, unlinkNext =>
    if p = "-" then
      loadDeps env rest true
    else if env.canOpen p then
      let r := loadDeps env rest false
      (Event.dlopen p :: ((if unlinkNext then [Event.unlink p] else []) ++ r.1),
       p :: r.2.1, r.2.2)
    else
      ([Event.dlopen p, Event.writeErr (env.openErr p)], [], true)

/-- The body of `main` after the `argc > 3` check has succeeded and the
positional arguments have been extracted (trampoline.c lines 29-96):
* delete the temp launcher file `argv[1]` when it is non-empty (line 30-32);
* in dummy-mirror mode (`argv[2] == "__dummy_mirror_test"`) print the
  library path, a space and the symbol name to standard output and exit 0
  (lines 39-42);
* otherwise run the dependency loop (exit 9 on failure), `dlopen` the target
  (exit 10 on failure, `dlerror` text to the sink), clear the stale error,
  `dlsym` the symbol (exit 11 on failure, error text to the sink), invoke
  it, `dlclose` the target handle and then every dependency handle in load
  order, and exit 0. -/
def mainAfterParse (env : Env) (temp lib : String) (deps : List String)
    (sym : String) : Nat × List Event :=
  let cleanup : List Event := if temp = "" then [] else [Event.unlink temp]
  if lib = "__dummy_mirror_test" then
    (0, cleanup ++ [Event.writeStdout (lib ++ " " ++ sym)])
  else if (loadDeps env deps false).2.2 then
    (9, cleanup ++ (loadDeps env deps false).1)
  else if env.canOpen lib then
    if env.hasSymbol lib sym then
      (0, cleanup ++ (loadDeps env deps false).1 ++
          (Event.dlopen lib :: Event.clearErr :: Event.resolve sym ::
           Event.invoke sym :: Event.close lib ::
           (loadDeps env deps false).2.1.map Event.close))
    else
      (11, cleanup ++ (loadDeps env deps false).1 ++
          [Event.dlopen lib, Event.clearErr, Event.resolve sym,
           Event.writeErr (env.symErr lib sym)])
  else
    (10, cleanup ++ (loadDeps env deps false).1 ++
        [Event.dlopen lib, Event.writeErr (env.openErr lib)])

/-- `main` of trampoline.c: with fewer than 4 arguments (program name
included) it performs nothing and returns 12 (line 127); otherwise
`argv[1]` is the temp launcher path, `argv[2]` the target library path,
`argv[argc-1]` the symbol name and `argv[3] .. argv[argc-2]` the dependency
arguments. -/
def runMain (env : Env) (args : List String) : Nat × List Event :=
  match args with
  | _ :: temp :: lib :: d :: ds =>
      mainAfterParse env temp lib ((d :: ds).dropLast) ((d :: ds).getLastD "")
  | _ => (12, [])

/-- A concrete loader environment used to exercise the theorems: every
path except `"bad"` opens, every symbol except `"missing"` resolves. -/
def envA : Env where
  canOpen := fun p => p != "bad"
  openErr := fun p => "cannot open " ++ p
  hasSymbol := fun _ s => s != "missing"
  symErr := fun _ s => "undefined symbol " ++ s
  unlinkOk := fun _ => true

example : runMain ⟨fun _ => true, fun _ => "e", fun _ _ => true, fun _ _ => "s",
    fun _ => true⟩ ["p", "t"] = (12, []) := rfl

example : runMain ⟨fun _ => true, fun _ => "e", fun _ _ => true, fun _ _ => "s",
    fun _ => true⟩ ["p", "t", "__dummy_mirror_test", "sym"] =
    (0, [Event.unlink "t", Event.writeStdout "__dummy_mirror_test sym"]) := by decide

example : runMain ⟨fun p => p ≠ "bad", fun p => "err " ++ p, fun _ _ => true,
    fun _ _ => "s", fun _ => true⟩ ["p", "", "lib", "-", "a", "bad", "sym"] =
    (9, [Event.dlopen "a", Event.unlink "a", Event.dlopen "bad",
         Event.writeErr "err bad"]) := by decide

example : runMain ⟨fun p => p ≠ "bad", fun p => "err " ++ p, fun _ s => s ≠ "no",
    fun _ _ => "s", fun _ => true⟩ ["p", "t", "lib", "a", "sym"] =
    (0, [Event.unlink "t", Event.dlopen "a", Event.dlopen "lib", Event.clearErr,
         Event.resolve "sym", Event.invoke "sym", Event.close "lib",
         Event.close "a"]) := by decide

/-- Extraction of the positional arguments, stated on the shape
`prog :: temp :: lib :: mid ++ [sym]` that every invocation with at least
four arguments has: the symbol name is the final argument and the
dependency arguments are exactly `mid`. -/
theorem runMain_concat (env : Env) (prog temp lib : String) (mid : List String)
    (sym : String) :
    runMain env (prog :: temp :: lib :: (mid ++ [sym])) =
      mainAfterParse env temp lib mid sym := by
  cases mid with
  | nil => simp [runMain]
  | cons m ms =>
      show mainAfterParse env temp lib ((m :: (ms ++ [sym])).dropLast)
          ((m :: (ms ++ [sym])).getLastD "") = mainAfterParse env temp lib (m :: ms) sym
      rw [← List.cons_append, List.dropLast_concat, List.getLastD_concat]

/-- Every event the dependency loop emits is a `dlopen`, an `unlink` or a
`writeErr`: the loop never closes a handle, never resolves or invokes a
symbol, and never writes to standard output. -/
theorem loadDeps_events (env : Env) (deps : List String) : ∀ (u : Bool),
    ∀ e ∈ (loadDeps env deps u).1,
      (∃ p, e = Event.dlopen p) ∨ (∃ p, e = Event.unlink p) ∨
        (∃ s, e = Event.writeErr s) := by
  induction deps with
  | nil => intro u e he; simp [loadDeps] at he
  | cons p rest ih =>
      intro u e he
      simp only [loadDeps] at he
      by_cases hp : p = "-"
      · rw [if_pos hp] at he
        exact ih true e he
      · rw [if_neg hp] at he
        by_cases hop : env.canOpen p
        · rw [if_pos hop] at he
          simp only [List.mem_cons, List.mem_append] at he
          rcases he with rfl | he
          · exact Or.inl ⟨p, rfl⟩
          rcases he with he | he
          · cases u with
            | false => simp at he
            | true =>
                simp only [if_true, List.mem_singleton] at he
                exact Or.inr (Or.inl ⟨p, he⟩)
          · exact ih false e he
        · rw [if_neg hop] at he
          simp only [List.mem_cons, List.not_mem_nil, or_false] at he
          rcases he with rfl | rfl
          · exact Or.inl ⟨p, rfl⟩
          · exact Or.inr (Or.inr ⟨env.openErr p, rfl⟩)

/-- If every dependency argument is either the `"-"` marker or a path the
loader can open, the dependency loop succeeds. -/
theorem loadDeps_ok (env : Env) (deps : List String)
    (h : ∀ p ∈ deps, p = "-" ∨ env.canOpen p = true) :
    ∀ u, (loadDeps env deps u).2.2 = false := by
  induction deps with
  | nil => intro u; simp [loadDeps]
  | cons p rest ih =>
      intro u
      simp only [loadDeps]
      by_cases hp : p = "-"
      · rw [if_pos hp]
        exact ih (fun q hq => h q (List.mem_cons_of_mem p hq)) true
      · rcases h p (List.mem_cons_self p rest) with h1 | h1
        · exact absurd h1 hp
        · rw [if_neg hp, if_pos h1]
          exact ih (fun q hq => h q (List.mem_cons_of_mem p hq)) false

/-- When the dependency loop succeeds, the handles it collected are exactly
the non-marker arguments, in load order. -/
theorem loadDeps_opened (env : Env) (deps : List String) : ∀ (u : Bool),
    (loadDeps env deps u).2.2 = false →
    (loadDeps env deps u).2.1 = deps.filter (fun p => p != "-") := by
  induction deps with
  | nil => intro u _; simp [loadDeps]
  | cons p rest ih =>
      intro u hs
      simp only [loadDeps] at hs ⊢
      by_cases hp : p = "-"
      · rw [if_pos hp] at hs ⊢
        rw [ih true hs, List.filter_cons_of_neg]
        simp [hp]
      · by_cases hop : env.canOpen p
        · rw [if_neg hp, if_pos hop] at hs ⊢
          rw [List.filter_cons_of_pos]
          · exact congrArg (p :: ·) (ih false hs)
          · simp [hp]
        · rw [if_neg hp, if_neg hop] at hs
          simp at hs

/-- If some dependency argument is a non-marker path the loader cannot
open, the dependency loop fails: its result flag is `true` and its trace
ends with the `dlopen` of a failing path followed by the loader's error
text written to the error sink, with nothing after it. -/
theorem loadDeps_fail (env : Env) : ∀ (deps : List String) (u : Bool),
    (∃ p ∈ deps, p ≠ "-" ∧ env.canOpen p = false) →
    ∃ p pre op, p ≠ "-" ∧ env.canOpen p = false ∧
      loadDeps env deps u =
        (pre ++ [Event.dlopen p, Event.writeErr (env.openErr p)], op, true) := by
  intro deps
  induction deps with
  | nil => intro u h; simp at h
  | cons q rest ih =>
      intro u h
      obtain ⟨p, hmem, hpd, hpo⟩ := h
      by_cases hq : q = "-"
      · have hrest : ∃ p ∈ rest, p ≠ "-" ∧ env.canOpen p = false := by
          rcases List.mem_cons.mp hmem with rfl | hm
          · exact absurd hq hpd
          · exact ⟨p, hm, hpd, hpo⟩
        obtain ⟨r, pre, op, h1, h2, h3⟩ := ih true hrest
        refine ⟨r, pre, op, h1, h2, ?_⟩
        simp only [loadDeps]
        rw [if_pos hq]
        exact h3
      · by_cases hqo : env.canOpen q
        · have hrest : ∃ p ∈ rest, p ≠ "-" ∧ env.canOpen p = false := by
            rcases List.mem_cons.mp hmem with rfl | hm
            · rw [hpo] at hqo; exact absurd hqo (by simp)
            · exact ⟨p, hm, hpd, hpo⟩
          obtain ⟨r, pre, op, h1, h2, h3⟩ := ih false hrest
          refine ⟨r, Event.dlopen q ::
            ((if u then [Event.unlink q] else []) ++ pre), q :: op, h1, h2, ?_⟩
          simp only [loadDeps]
          rw [if_neg hq, if_pos hqo, h3]
          simp
        · refine ⟨q, [], [], hq, by simpa using hqo, ?_⟩
          simp only [loadDeps]
          rw [if_neg hq, if_neg hqo]
          simp

/-- A path the dependency loop unlinks is never the marker itself and is
always a path whose `dlopen` succeeded: a marked path whose load fails is
not deleted. -/
theorem loadDeps_unlink_open (env : Env) : ∀ (deps : List String) (u : Bool)
    (p : String), Event.unlink p ∈ (loadDeps env deps u).1 →
      p ≠ "-" ∧ env.canOpen p = true := by
  intro deps
  induction deps with
  | nil => intro u p h; simp [loadDeps] at h
  | cons q rest ih =>
      intro u p h
      simp only [loadDeps] at h
      by_cases hq : q = "-"
      · rw [if_pos hq] at h
        exact ih true p h
      · by_cases hqo : env.canOpen q
        · rw [if_neg hq, if_pos hqo] at h
          simp only [List.mem_cons, List.mem_append] at h
          rcases h with h | h | h
          · simp at h
          · cases u with
            | false => simp at h
            | true =>
                simp only [if_true, List.mem_singleton] at h
                obtain rfl : p = q := by injection h
                exact ⟨hq, hqo⟩
          · exact ih false p h
        · rw [if_neg hq, if_neg hqo] at h
          simp at h

/-- A path the dependency loop unlinks is always immediately preceded by a
`"-"` marker in the argument list (starting with the flag clear, as `main`
does): the flag does not persist past the entry that consumes it. -/
theorem loadDeps_unlink_marked (env : Env) : ∀ (deps : List String) (u : Bool)
    (p : String), Event.unlink p ∈ (loadDeps env deps u).1 →
      (u = true ∧ ∃ l2, deps = p :: l2) ∨
        ∃ l1 l2, deps = l1 ++ "-" :: p :: l2 := by
  intro deps
  induction deps with
  | nil => intro u p h; simp [loadDeps] at h
  | cons q rest ih =>
      intro u p h
      simp only [loadDeps] at h
      by_cases hq : q = "-"
      · rw [if_pos hq] at h
        rcases ih true p h with ⟨_, l2, rfl⟩ | ⟨l1, l2, rfl⟩
        · exact Or.inr ⟨[], l2, by simp [hq]⟩
        · exact Or.inr ⟨q :: l1, l2, by simp⟩
      · by_cases hqo : env.canOpen q
        · rw [if_neg hq, if_pos hqo] at h
          simp only [List.mem_cons, List.mem_append] at h
          rcases h with h | h | h
          · simp at h
          · cases u with
            | false => simp at h
            | true =>
                simp only [if_true, List.mem_singleton] at h
                obtain rfl : p = q := by injection h
                exact Or.inl ⟨rfl, rest, rfl⟩
          · rcases ih false p h with ⟨hfalse, _⟩ | ⟨l1, l2, rfl⟩
            · simp at hfalse
            · exact Or.inr ⟨q :: l1, l2, rfl⟩
        · rw [if_neg hq, if_neg hqo] at h
          simp at h

/-- Conversely, a non-marker path that the loader can open and that is
immediately preceded by a `"-"` marker is unlinked by the dependency loop,
provided every argument before the marker is itself a marker or an openable
path (so that the loop reaches it). -/
theorem loadDeps_unlink_of_marked (env : Env) (p : String)
    (hp : p ≠ "-") (hop : env.canOpen p = true) :
    ∀ (l1 : List String), (∀ q ∈ l1, q = "-" ∨ env.canOpen q = true) →
    ∀ (l2 : List String) (u : Bool),
      Event.unlink p ∈ (loadDeps env (l1 ++ "-" :: p :: l2) u).1 := by
  intro l1
  induction l1 with
  | nil =>
      intro _ l2 u
      show Event.unlink p ∈ (loadDeps env ("-" :: p :: l2) u).1
      simp only [loadDeps, if_true]
      rw [if_neg hp, if_pos hop]
      simp
  | cons a l1 ih =>
      intro hall l2 u
      have ha := hall a (List.mem_cons_self a l1)
      show Event.unlink p ∈ (loadDeps env (a :: (l1 ++ "-" :: p :: l2)) u).1
      simp only [loadDeps]
      by_cases haq : a = "-"
      · rw [if_pos haq]
        exact ih (fun q hq => hall q (List.mem_cons_of_mem a hq)) l2 true
      · rcases ha with ha | ha
        · exact absurd ha haq
        · rw [if_neg haq, if_pos ha]
          refine List.mem_cons_of_mem _ (List.mem_append.mpr (Or.inr ?_))
          exact ih (fun q hq => hall q (List.mem_cons_of_mem a hq)) l2 false

/-- A trailing `"-"` marker, with no path after it, is a no-op for the
dependency loop: it only sets a flag that nothing ever reads again. -/
theorem loadDeps_concat_dash (env : Env) : ∀ (deps : List String) (u : Bool),
    loadDeps env (deps ++ ["-"]) u = loadDeps env deps u := by
  intro deps
  induction deps with
  | nil =>
      intro u
      show loadDeps env ("-" :: []) u = loadDeps env [] u
      simp [loadDeps]
  | cons q rest ih =>
      intro u
      show loadDeps env (q :: (rest ++ ["-"])) u = loadDeps env (q :: rest) u
      simp only [loadDeps]
      by_cases hq : q = "-"
      · rw [if_pos hq, if_pos hq]
        exact ih true
      · by_cases hqo : env.canOpen q
        · rw [if_neg hq, if_neg hq, if_pos hqo, if_pos hqo, ih false]
        · rw [if_neg hq, if_neg hq, if_neg hqo, if_neg hqo]

/-- The dependency loop never consults the filesystem's response to
`unlink` (the C code discards the return value of every `unlink` call):
two environments differing only in that response give identical runs. -/
theorem loadDeps_mk_unlinkOk (c : String → Bool) (o : String → String)
    (hs : String → String → Bool) (se : String → String → String)
    (f g : String → Bool) : ∀ (deps : List String) (u : Bool),
      loadDeps ⟨c, o, hs, se, f⟩ deps u = loadDeps ⟨c, o, hs, se, g⟩ deps u := by
  intro deps
  induction deps with
  | nil => intro u; rfl
  | cons q rest ih =>
      intro u
      simp only [loadDeps]
      by_cases hq : q = "-"
      · rw [if_pos hq, if_pos hq]
        exact ih true
      · rw [if_neg hq, if_neg hq]
        by_cases hqo : c q = true
        · rw [if_pos hqo, if_pos hqo, ih false]
        · rw [if_neg hqo, if_neg hqo]

/-- The artifact-cleanup step contributes at most the `unlink` of the temp
launcher path to the trace. -/
theorem mem_cleanup (e : Event) (temp : String) :
    e ∈ (if temp = "" then ([] : List Event) else [Event.unlink temp]) →
      e = Event.unlink temp := by
  by_cases h : temp = "" <;> simp [h]

/-- C1: for every invocation whose argument count (program name included)
is fewer than 4, `main` returns exit code 12 and performs no observable
effect at all — in particular it writes nothing to the error sink. -/
theorem main_few_args_exits_12_silent (env : Env) (args : List String)
    (h : args.length < 4) : runMain env args = (12, []) := by
  rcases args with _ | ⟨a, _ | ⟨b, _ | ⟨c, _ | ⟨d, t⟩⟩⟩⟩
  · rfl
  · rfl
  · rfl
  · rfl
  · simp only [List.length_cons] at h
    omega

/-- Witness for C1 at the concrete two-argument invocation
`["trampoline", "tmp"]`. -/
theorem main_few_args_exits_12_silent_witness :
    runMain envA ["trampoline", "tmp"] = (12, []) :=
  main_few_args_exits_12_silent envA ["trampoline", "tmp"] (by decide)

/-- C2: with at least 4 arguments and target library path equal to the
literal `"__dummy_mirror_test"`, `main` writes exactly the target library
path, a single space and the symbol name to standard output, returns exit
code 0, and attempts to load no library, regardless of how many dependency
arguments are supplied. -/
theorem main_dummy_mirror_echoes_and_exits_0 (env : Env) (prog temp : String)
    (mid : List String) (sym : String) :
    (runMain env (prog :: temp :: "__dummy_mirror_test" :: (mid ++ [sym]))).1 = 0 ∧
    (runMain env (prog :: temp :: "__dummy_mirror_test" :: (mid ++ [sym]))).2 =
      (if temp = "" then [] else [Event.unlink temp]) ++
        [Event.writeStdout ("__dummy_mirror_test" ++ " " ++ sym)] ∧
    ∀ p, Event.dlopen p ∉
      (runMain env (prog :: temp :: "__dummy_mirror_test" :: (mid ++ [sym]))).2 := by
  rw [runMain_concat]
  refine ⟨by simp [mainAfterParse], by simp [mainAfterParse], ?_⟩
  intro p hp
  simp only [mainAfterParse, if_pos rfl] at hp
  rcases List.mem_append.mp hp with h | h
  · exact absurd (mem_cleanup _ temp h) (by simp)
  · simp at h

/-- Witness for C2 at a concrete dummy-mirror invocation with two
dependency arguments. -/
theorem main_dummy_mirror_echoes_and_exits_0_witness :
    (runMain envA ["p", "t", "__dummy_mirror_test", "a", "-", "go"]).1 = 0 ∧
    (runMain envA ["p", "t", "__dummy_mirror_test", "a", "-", "go"]).2 =
      [Event.unlink "t", Event.writeStdout "__dummy_mirror_test go"] := by
  have h := main_dummy_mirror_echoes_and_exits_0 envA "p" "t" ["a", "-"] "go"
  exact ⟨h.1, by decide⟩

/-- C10: in dummy-mirror mode the whole trace is the best-effort deletion
of a non-empty temp-launcher path (still performed, before the bypass
check) followed by the echo to standard output: no library is opened and
no path other than the temp-launcher path is ever deleted, even when `"-"`
markers appear among the dependency arguments. -/
theorem main_dummy_mirror_frame (env : Env) (prog temp : String)
    (mid : List String) (sym : String) :
    (runMain env (prog :: temp :: "__dummy_mirror_test" :: (mid ++ [sym]))).2 =
      (if temp = "" then [] else [Event.unlink temp]) ++
        [Event.writeStdout ("__dummy_mirror_test" ++ " " ++ sym)] ∧
    (∀ p, Event.dlopen p ∉
      (runMain env (prog :: temp :: "__dummy_mirror_test" :: (mid ++ [sym]))).2) ∧
    (∀ p, p ≠ temp → Event.unlink p ∉
      (runMain env (prog :: temp :: "__dummy_mirror_test" :: (mid ++ [sym]))).2) := by
  rw [runMain_concat]
  refine ⟨by simp [mainAfterParse], ?_, ?_⟩
  · intro p hp
    simp only [mainAfterParse, if_pos rfl] at hp
    rcases List.mem_append.mp hp with h | h
    · exact absurd (mem_cleanup _ temp h) (by simp)
    · simp at h
  · intro p hne hp
    simp only [mainAfterParse, if_pos rfl] at hp
    rcases List.mem_append.mp hp with h | h
    · have := mem_cleanup _ temp h
      exact hne (by injection this)
    · simp at h

/-- Witness for C10: a dummy-mirror invocation whose dependency arguments
contain a marked path; the path is not deleted and nothing is opened. -/
theorem main_dummy_mirror_frame_witness :
    (runMain envA ["p", "t", "__dummy_mirror_test", "-", "a", "go"]).2 =
      [Event.unlink "t", Event.writeStdout "__dummy_mirror_test go"] ∧
    Event.unlink "a" ∉
      (runMain envA ["p", "t", "__dummy_mirror_test", "-", "a", "go"]).2 := by
  have h := main_dummy_mirror_frame envA "p" "t" ["-", "a"] "go"
  exact ⟨by decide, h.2.2 "a" (by decide)⟩

/-- C3: if some dependency argument is a non-marker path that fails to
open, `main` returns exit code 9 with the loader's error text for a
failing dependency as the very last thing written (it exits immediately
after writing it to the error sink), and no handle — in particular no
already-opened dependency handle — is closed before that exit. -/
theorem main_dep_open_failure_exits_9_no_unwind (env : Env)
    (prog temp lib : String) (mid : List String) (sym : String)
    (hlib : lib ≠ "__dummy_mirror_test")
    (hfail : ∃ p ∈ mid, p ≠ "-" ∧ env.canOpen p = false) :
    (runMain env (prog :: temp :: lib :: (mid ++ [sym]))).1 = 9 ∧
    (∃ p, p ≠ "-" ∧ env.canOpen p = false ∧
      (runMain env (prog :: temp :: lib :: (mid ++ [sym]))).2.getLast? =
        some (Event.writeErr (env.openErr p))) ∧
    ∀ q, Event.close q ∉ (runMain env (prog :: temp :: lib :: (mid ++ [sym]))).2 := by
  rw [runMain_concat]
  obtain ⟨p, pre, op, hpd, hpo, heq⟩ := loadDeps_fail env mid false hfail
  have hflag : (loadDeps env mid false).2.2 = true := by rw [heq]
  have htr : (loadDeps env mid false).1 =
      pre ++ [Event.dlopen p, Event.writeErr (env.openErr p)] := by rw [heq]
  have hmain : mainAfterParse env temp lib mid sym =
      (9, (if temp = "" then [] else [Event.unlink temp]) ++
        (loadDeps env mid false).1) := by
    simp only [mainAfterParse]
    rw [if_neg hlib, if_pos hflag]
  rw [hmain]
  refine ⟨rfl, ⟨p, hpd, hpo, ?_⟩, ?_⟩
  · rw [htr]
    have : (if temp = "" then ([] : List Event) else [Event.unlink temp]) ++
        (pre ++ [Event.dlopen p, Event.writeErr (env.openErr p)]) =
        ((if temp = "" then [] else [Event.unlink temp]) ++
          (pre ++ [Event.dlopen p])) ++ [Event.writeErr (env.openErr p)] := by
      simp
    rw [this, List.getLast?_concat]
  · intro q hq
    rcases List.mem_append.mp hq with h | h
    · exact absurd (mem_cleanup _ temp h) (by simp)
    · rcases loadDeps_events env mid false _ h with ⟨_, h2⟩ | ⟨_, h2⟩ | ⟨_, h2⟩ <;>
        simp at h2

/-- Witness for C3: the dependency `"bad"` fails to open after `"a"` was
opened; exit code 9 and no close event. -/
theorem main_dep_open_failure_witness :
    (runMain envA ["p", "t", "lib", "a", "bad", "go"]).1 = 9 ∧
    Event.close "a" ∉ (runMain envA ["p", "t", "lib", "a", "bad", "go"]).2 := by
  have h := main_dep_open_failure_exits_9_no_unwind envA "p" "t" "lib"
    ["a", "bad"] "go" (by decide) ⟨"bad", by decide, by decide, by decide⟩
  exact ⟨h.1, h.2.2 "a"⟩

/-- C4: if every dependency argument is a marker or a path that opens but
the target library fails to open, `main` returns exit code 10, the error
sink receives the loader's error text for the target — non-empty whenever
the loader reports non-empty text — and no symbol resolution is attempted
before exiting. -/
theorem main_target_open_failure_exits_10 (env : Env)
    (prog temp lib : String) (mid : List String) (sym : String)
    (hlib : lib ≠ "__dummy_mirror_test")
    (hdeps : ∀ p ∈ mid, p = "-" ∨ env.canOpen p = true)
    (htgt : env.canOpen lib = false)
    (herr : env.openErr lib ≠ "") :
    (runMain env (prog :: temp :: lib :: (mid ++ [sym]))).1 = 10 ∧
    (∃ s, s ≠ "" ∧
      Event.writeErr s ∈ (runMain env (prog :: temp :: lib :: (mid ++ [sym]))).2) ∧
    ∀ s, Event.resolve s ∉ (runMain env (prog :: temp :: lib :: (mid ++ [sym]))).2 := by
  rw [runMain_concat]
  have hflag : (loadDeps env mid false).2.2 = false := loadDeps_ok env mid hdeps false
  have hmain : mainAfterParse env temp lib mid sym =
      (10, (if temp = "" then [] else [Event.unlink temp]) ++
        (loadDeps env mid false).1 ++
        [Event.dlopen lib, Event.writeErr (env.openErr lib)]) := by
    simp only [mainAfterParse]
    rw [if_neg hlib, if_neg (by simp [hflag]), if_neg (by simp [htgt])]
  rw [hmain]
  refine ⟨rfl, ⟨env.openErr lib, herr, by simp⟩, ?_⟩
  intro s hs
  rcases List.mem_append.mp hs with h | h
  · rcases List.mem_append.mp h with h1 | h1
    · exact absurd (mem_cleanup _ temp h1) (by simp)
    · rcases loadDeps_events env mid false _ h1 with ⟨_, h2⟩ | ⟨_, h2⟩ | ⟨_, h2⟩ <;>
        simp at h2
  · simp at h

/-- Witness for C4: all dependencies open, the target `"bad"` does not;
exit code 10 and the loader text reaches the sink. -/
theorem main_target_open_failure_witness :
    (runMain envA ["p", "t", "bad", "a", "go"]).1 = 10 ∧
    Event.resolve "go" ∉ (runMain envA ["p", "t", "bad", "a", "go"]).2 := by
  have h := main_target_open_failure_exits_10 envA "p" "t" "bad" ["a"] "go"
    (by decide) (by intro p hp; right; simp at hp; simp [hp, envA]) (by decide)
    (by decide)
  exact ⟨h.1, h.2.2 "go"⟩

/-- C5: whenever the target library opens (all dependencies having been
loaded), the stale loader error state is cleared immediately before the
symbol resolution; and if the resolution fails, `main` writes the loader's
error text to the error sink and returns exit code 11 without invoking
anything. -/
theorem main_clears_error_then_resolves_exits_11 (env : Env)
    (prog temp lib : String) (mid : List String) (sym : String)
    (hlib : lib ≠ "__dummy_mirror_test")
    (hdeps : ∀ p ∈ mid, p = "-" ∨ env.canOpen p = true)
    (htgt : env.canOpen lib = true) :
    (∃ t1 t2, (runMain env (prog :: temp :: lib :: (mid ++ [sym]))).2 =
      t1 ++ Event.clearErr :: Event.resolve sym :: t2) ∧
    (env.hasSymbol lib sym = false →
      (runMain env (prog :: temp :: lib :: (mid ++ [sym]))).1 = 11 ∧
      Event.writeErr (env.symErr lib sym) ∈
        (runMain env (prog :: temp :: lib :: (mid ++ [sym]))).2 ∧
      ∀ s, Event.invoke s ∉ (runMain env (prog :: temp :: lib :: (mid ++ [sym]))).2) := by
  rw [runMain_concat]
  have hflag : (loadDeps env mid false).2.2 = false := loadDeps_ok env mid hdeps false
  by_cases hsym : env.hasSymbol lib sym = true
  · have hmain : mainAfterParse env temp lib mid sym =
        (0, (if temp = "" then [] else [Event.unlink temp]) ++
          (loadDeps env mid false).1 ++
          (Event.dlopen lib :: Event.clearErr :: Event.resolve sym ::
           Event.invoke sym :: Event.close lib ::
           (loadDeps env mid false).2.1.map Event.close)) := by
      simp only [mainAfterParse]
      rw [if_neg hlib, if_neg (by simp [hflag]), if_pos htgt, if_pos hsym]
    rw [hmain]
    refine ⟨⟨(if temp = "" then [] else [Event.unlink temp]) ++
      (loadDeps env mid false).1 ++ [Event.dlopen lib],
      Event.invoke sym :: Event.close lib ::
        (loadDeps env mid false).2.1.map Event.close, by simp⟩, ?_⟩
    intro hfalse
    rw [hsym] at hfalse
    simp at hfalse
  · have hsymf : env.hasSymbol lib sym = false := by
      simpa using hsym
    have hmain : mainAfterParse env temp lib mid sym =
        (11, (if temp = "" then [] else [Event.unlink temp]) ++
          (loadDeps env mid false).1 ++
          [Event.dlopen lib, Event.clearErr, Event.resolve sym,
           Event.writeErr (env.symErr lib sym)]) := by
      simp only [mainAfterParse]
      rw [if_neg hlib, if_neg (by simp [hflag]), if_pos htgt, if_neg (by simp [hsymf])]
    rw [hmain]
    refine ⟨⟨(if temp = "" then [] else [Event.unlink temp]) ++
      (loadDeps env mid false).1 ++ [Event.dlopen lib],
      [Event.writeErr (env.symErr lib sym)], by simp⟩, ?_⟩
    intro _
    refine ⟨rfl, by simp, ?_⟩
    intro s hs
    rcases List.mem_append.mp hs with h | h
    · rcases List.mem_append.mp h with h1 | h1
      · exact absurd (mem_cleanup _ temp h1) (by simp)
      · rcases loadDeps_events env mid false _ h1 with ⟨_, h2⟩ | ⟨_, h2⟩ | ⟨_, h2⟩ <;>
          simp at h2
    · simp at h

/-- Witness for C5: the target opens but the symbol `"missing"` does not
resolve; the error is cleared right before resolution and exit code is 11
with no invocation. -/
theorem main_symbol_failure_witness :
    (runMain envA ["p", "t", "lib", "a", "missing"]).1 = 11 ∧
    Event.invoke "missing" ∉ (runMain envA ["p", "t", "lib", "a", "missing"]).2 := by
  have h := main_clears_error_then_resolves_exits_11 envA "p" "t" "lib" ["a"]
    "missing" (by decide) (by intro p hp; right; simp at hp; simp [hp, envA])
    (by decide)
  have h2 := h.2 (by decide)
  exact ⟨h2.1, h2.2.2 "missing"⟩

/-- C6: semantics of the `"-"` marker in the dependency loader, starting
as `main` does with the flag clear: (i) a path whose load fails is never
deleted; (ii) every deleted path is a non-marker path that opened
successfully and is immediately preceded by a `"-"` marker in the
dependency sequence — so the flag never persists past the entry that
consumes it, and paths without a preceding `"-"` are never deleted by the
loader; (iii) conversely a marked, openable, non-marker path that the loop
reaches is deleted. -/
theorem depLoader_marker_unlink_semantics (env : Env) (deps : List String) :
    (∀ p, env.canOpen p = false →
      Event.unlink p ∉ (loadDeps env deps false).1) ∧
    (∀ p, Event.unlink p ∈ (loadDeps env deps false).1 →
      p ≠ "-" ∧ env.canOpen p = true ∧ ∃ l1 l2, deps = l1 ++ "-" :: p :: l2) ∧
    (∀ l1 p l2, deps = l1 ++ "-" :: p :: l2 → p ≠ "-" → env.canOpen p = true →
      (∀ q ∈ l1, q = "-" ∨ env.canOpen q = true) →
      Event.unlink p ∈ (loadDeps env deps false).1) := by
  refine ⟨?_, ?_, ?_⟩
  · intro p hp hmem
    exact absurd (loadDeps_unlink_open env deps false p hmem).2 (by simp [hp])
  · intro p hmem
    obtain ⟨h1, h2⟩ := loadDeps_unlink_open env deps false p hmem
    refine ⟨h1, h2, ?_⟩
    rcases loadDeps_unlink_marked env deps false p hmem with ⟨hf, _⟩ | hsplit
    · simp at hf
    · exact hsplit
  · intro l1 p l2 hdeps hp hop hl1
    subst hdeps
    exact loadDeps_unlink_of_marked env p hp hop l1 hl1 l2 false

/-- Witness for C6: in `["-", "a", "b"]` the marked path `"a"` is deleted
and the unmarked path `"b"` is not. -/
theorem depLoader_marker_unlink_semantics_witness :
    Event.unlink "a" ∈ (loadDeps envA ["-", "a", "b"] false).1 ∧
    Event.unlink "b" ∉ (loadDeps envA ["-", "a", "b"] false).1 := by
  constructor
  · exact (depLoader_marker_unlink_semantics envA ["-", "a", "b"]).2.2 [] "a" ["b"]
      rfl (by decide) (by decide) (by intro q hq; simp at hq)
  · decide

/-- C7: on an invocation that reaches successful symbol resolution, the
resolved symbol is invoked exactly once, and the trace ends with that
invocation followed by the release of the target handle and then of every
dependency handle in load order; the exit code is 0. -/
theorem main_success_invokes_once_then_releases (env : Env)
    (prog temp lib : String) (mid : List String) (sym : String)
    (hlib : lib ≠ "__dummy_mirror_test")
    (hdeps : ∀ p ∈ mid, p = "-" ∨ env.canOpen p = true)
    (htgt : env.canOpen lib = true)
    (hsym : env.hasSymbol lib sym = true) :
    (runMain env (prog :: temp :: lib :: (mid ++ [sym]))).1 = 0 ∧
    (runMain env (prog :: temp :: lib :: (mid ++ [sym]))).2.count
      (Event.invoke sym) = 1 ∧
    ∃ pre, (runMain env (prog :: temp :: lib :: (mid ++ [sym]))).2 =
      pre ++ Event.invoke sym :: Event.close lib ::
        (mid.filter (fun p => p != "-")).map Event.close := by
  rw [runMain_concat]
  have hflag : (loadDeps env mid false).2.2 = false := loadDeps_ok env mid hdeps false
  have hopened : (loadDeps env mid false).2.1 = mid.filter (fun p => p != "-") :=
    loadDeps_opened env mid false hflag
  have hmain : mainAfterParse env temp lib mid sym =
      (0, (if temp = "" then [] else [Event.unlink temp]) ++
        (loadDeps env mid false).1 ++
        (Event.dlopen lib :: Event.clearErr :: Event.resolve sym ::
         Event.invoke sym :: Event.close lib ::
         (mid.filter (fun p => p != "-")).map Event.close)) := by
    simp only [mainAfterParse]
    rw [if_neg hlib, if_neg (by simp [hflag]), if_pos htgt, if_pos hsym, hopened]
  rw [hmain]
  have hpre : Event.invoke sym ∉
      (if temp = "" then ([] : List Event) else [Event.unlink temp]) ++
        (loadDeps env mid false).1 ++ [Event.dlopen lib, Event.clearErr,
          Event.resolve sym] := by
    intro h
    rcases List.mem_append.mp h with h1 | h1
    · rcases List.mem_append.mp h1 with h2 | h2
      · exact absurd (mem_cleanup _ temp h2) (by simp)
      · rcases loadDeps_events env mid false _ h2 with ⟨_, h3⟩ | ⟨_, h3⟩ | ⟨_, h3⟩ <;>
          simp at h3
    · simp at h1
  have hclo : Event.invoke sym ∉ (mid.filter (fun p => p != "-")).map Event.close := by
    intro h
    obtain ⟨a, _, ha⟩ := List.mem_map.mp h
    simp at ha
  have hsplit : (if temp = "" then ([] : List Event) else [Event.unlink temp]) ++
      (loadDeps env mid false).1 ++
      (Event.dlopen lib :: Event.clearErr :: Event.resolve sym ::
       Event.invoke sym :: Event.close lib ::
       (mid.filter (fun p => p != "-")).map Event.close) =
      ((if temp = "" then [] else [Event.unlink temp]) ++
        (loadDeps env mid false).1 ++ [Event.dlopen lib, Event.clearErr,
          Event.resolve sym]) ++
        (Event.invoke sym :: Event.close lib ::
          (mid.filter (fun p => p != "-")).map Event.close) := by
    simp
  refine ⟨rfl, ?_, ?_⟩
  · rw [hsplit, List.count_append]
    rw [List.count_eq_zero.mpr hpre]
    simp [List.count_cons, List.count_eq_zero.mpr hclo]
  · exact ⟨(if temp = "" then [] else [Event.unlink temp]) ++
      (loadDeps env mid false).1 ++ [Event.dlopen lib, Event.clearErr,
        Event.resolve sym], hsplit⟩

/-- Witness for C7: a full successful run with one dependency kept and one
marker-deleted dependency. -/
theorem main_success_witness :
    (runMain envA ["p", "t", "lib", "-", "a", "b", "go"]).1 = 0 ∧
    (runMain envA ["p", "t", "lib", "-", "a", "b", "go"]).2.count
      (Event.invoke "go") = 1 := by
  have h := main_success_invokes_once_then_releases envA "p" "t" "lib"
    ["-", "a", "b"] "go" (by decide)
    (by intro p hp; simp at hp; rcases hp with rfl | rfl | rfl
        · left; rfl
        · right; decide
        · right; decide)
    (by decide) (by decide)
  exact ⟨h.1, h.2.1⟩

/-- C8: on every invocation with at least 4 arguments the trace begins
with the cleanup step — the `unlink` of the temp-path argument exactly
when that argument is non-empty, before anything else (so before any
library loading) and nothing when it is empty — and every other `unlink`
in the run comes from the dependency loader, on a non-marker path that
opened successfully; moreover the run is entirely independent of the
filesystem's response to `unlink`, the result the C code discards. -/
theorem main_temp_cleanup_first_best_effort (env : Env)
    (prog temp lib : String) (mid : List String) (sym : String)
    (f : String → Bool) :
    (∃ rest, (runMain env (prog :: temp :: lib :: (mid ++ [sym]))).2 =
      (if temp = "" then [] else [Event.unlink temp]) ++ rest ∧
      ∀ p, Event.unlink p ∈ rest → p ≠ "-" ∧ env.canOpen p = true) ∧
    runMain { env with unlinkOk := f } (prog :: temp :: lib :: (mid ++ [sym])) =
      runMain env (prog :: temp :: lib :: (mid ++ [sym])) := by
  constructor
  · rw [runMain_concat]
    simp only [mainAfterParse]
    by_cases hlib : lib = "__dummy_mirror_test"
    · rw [if_pos hlib]
      refine ⟨[Event.writeStdout (lib ++ " " ++ sym)], rfl, ?_⟩
      intro p hp
      simp at hp
    · rw [if_neg hlib]
      by_cases hflag : (loadDeps env mid false).2.2
      · rw [if_pos hflag]
        refine ⟨(loadDeps env mid false).1, rfl, ?_⟩
        intro p hp
        exact loadDeps_unlink_open env mid false p hp
      · rw [if_neg hflag]
        by_cases htgt : env.canOpen lib
        · by_cases hsym : env.hasSymbol lib sym
          · rw [if_pos htgt, if_pos hsym]
            refine ⟨(loadDeps env mid false).1 ++
              (Event.dlopen lib :: Event.clearErr :: Event.resolve sym ::
               Event.invoke sym :: Event.close lib ::
               (loadDeps env mid false).2.1.map Event.close), by simp, ?_⟩
            intro p hp
            rcases List.mem_append.mp hp with h | h
            · exact loadDeps_unlink_open env mid false p h
            · exfalso
              simp only [List.mem_cons] at h
              rcases h with h | h | h | h | h | h
              · simp at h
              · simp at h
              · simp at h
              · simp at h
              · simp at h
              · obtain ⟨a, _, ha⟩ := List.mem_map.mp h
                simp at ha
          · rw [if_pos htgt, if_neg hsym]
            refine ⟨(loadDeps env mid false).1 ++
              [Event.dlopen lib, Event.clearErr, Event.resolve sym,
               Event.writeErr (env.symErr lib sym)], by simp, ?_⟩
            intro p hp
            rcases List.mem_append.mp hp with h | h
            · exact loadDeps_unlink_open env mid false p h
            · simp at h
        · rw [if_neg htgt]
          refine ⟨(loadDeps env mid false).1 ++
            [Event.dlopen lib, Event.writeErr (env.openErr lib)], by simp, ?_⟩
          intro p hp
          rcases List.mem_append.mp hp with h | h
          · exact loadDeps_unlink_open env mid false p h
          · simp at h
  · rw [runMain_concat, runMain_concat]
    obtain ⟨c, o, hs, se, un⟩ := env
    simp only [mainAfterParse]
    rw [loadDeps_mk_unlinkOk c o hs se f un]

/-- Witness for C8: a concrete run whose trace starts with the cleanup
unlink, and the same run under a filesystem that fails every deletion. -/
theorem main_temp_cleanup_witness :
    (runMain envA ["p", "tmp", "lib", "go"]).2 =
      [Event.unlink "tmp"] ++ [Event.dlopen "lib", Event.clearErr,
        Event.resolve "go", Event.invoke "go", Event.close "lib"] ∧
    runMain { envA with unlinkOk := fun _ => false } ["p", "tmp", "lib", "go"] =
      runMain envA ["p", "tmp", "lib", "go"] := by
  refine ⟨by decide, ?_⟩
  exact (main_temp_cleanup_first_best_effort envA "p" "tmp" "lib" [] "go"
    (fun _ => false)).2

/-- C9: the symbol name used for resolution is exactly the final argument,
however many dependency arguments precede it; and a `"-"` marker occurring
as the last dependency argument (immediately before the symbol name)
changes nothing: it deletes no file and does not consume the symbol name —
the whole run is identical to the run without that trailing marker. -/
theorem main_symbol_is_last_argument (env : Env) (prog temp lib : String)
    (mid : List String) (sym : String) :
    (∀ s, Event.resolve s ∈
      (runMain env (prog :: temp :: lib :: (mid ++ [sym]))).2 → s = sym) ∧
    runMain env (prog :: temp :: lib :: ((mid ++ ["-"]) ++ [sym])) =
      runMain env (prog :: temp :: lib :: (mid ++ [sym])) := by
  constructor
  · intro s hs
    rw [runMain_concat] at hs
    simp only [mainAfterParse] at hs
    by_cases hlib : lib = "__dummy_mirror_test"
    · rw [if_pos hlib] at hs
      simp only [] at hs
      rcases List.mem_append.mp hs with h | h
      · exact absurd (mem_cleanup _ temp h) (by simp)
      · simp at h
    · rw [if_neg hlib] at hs
      by_cases hflag : (loadDeps env mid false).2.2
      · rw [if_pos hflag] at hs
        simp only [] at hs
        rcases List.mem_append.mp hs with h | h
        · exact absurd (mem_cleanup _ temp h) (by simp)
        · rcases loadDeps_events env mid false _ h with ⟨_, h2⟩ | ⟨_, h2⟩ | ⟨_, h2⟩ <;>
            simp at h2
      · rw [if_neg hflag] at hs
        have hdep : ∀ e ∈ (loadDeps env mid false).1, e ≠ Event.resolve s := by
          intro e he
          rcases loadDeps_events env mid false _ he with ⟨_, h2⟩ | ⟨_, h2⟩ | ⟨_, h2⟩ <;>
            simp [h2]
        by_cases htgt : env.canOpen lib
        · by_cases hsy : env.hasSymbol lib sym
          · rw [if_pos htgt, if_pos hsy] at hs
            simp only [] at hs
            rcases List.mem_append.mp hs with h | h
            · rcases List.mem_append.mp h with h1 | h1
              · exact absurd (mem_cleanup _ temp h1) (by simp)
              · exact absurd rfl (hdep _ h1)
            · simp [List.mem_cons, List.mem_map] at h
              exact h
          · rw [if_pos htgt, if_neg hsy] at hs
            simp only [] at hs
            rcases List.mem_append.mp hs with h | h
            · rcases List.mem_append.mp h with h1 | h1
              · exact absurd (mem_cleanup _ temp h1) (by simp)
              · exact absurd rfl (hdep _ h1)
            · simp [List.mem_cons] at h
              exact h
        · rw [if_neg htgt] at hs
          simp only [] at hs
          rcases List.mem_append.mp hs with h | h
          · rcases List.mem_append.mp h with h1 | h1
            · exact absurd (mem_cleanup _ temp h1) (by simp)
            · exact absurd rfl (hdep _ h1)
          · simp at h
  · rw [runMain_concat, runMain_concat]
    simp only [mainAfterParse]
    rw [loadDeps_concat_dash]

/-- Witness for C9: adding a trailing `"-"` after the dependency `"a"`
leaves the run unchanged, and the resolved symbol is the final argument. -/
theorem main_symbol_is_last_argument_witness :
    runMain envA ["p", "t", "lib", "a", "-", "go"] =
      runMain envA ["p", "t", "lib", "a", "go"] :=
  (main_symbol_is_last_argument envA "p" "t" "lib" ["a"] "go").2
